import Mathlib

/-!
Verification of the fundings_screener repository's aggregation core:
the spread classifier (`calculateMaxSpread`, `getOpportunityType` from
`frontend/src/utils/spreadCalculator.ts`), the page-level filter pipeline
(`handleFilterChange` from `frontend/src/pages/Index.tsx`), the funding-rates
fetch hook (`fetchFundingRates` from `frontend/src/hooks/useFundingRates.ts`),
and the notification-settings database constraints
(`database/clean_queries.sql`, `database/migrate_add_minutes_interval.sql`).

Rates are modelled as exact rationals (the source computes with JS numbers on
decimal percentages); lists keep the source's iteration order.
-/

namespace FundingsScreener

/-- Interface `DexFundingRate` from `frontend/src/data/mockFundingData.ts`:
one venue (DEX) name and its annualized funding rate. -/
structure DexFundingRate where
  dex : String
  rate : ℚ
  deriving DecidableEq, Repr

/-- Interface `MaxSpreadResult` from `frontend/src/data/mockFundingData.ts`:
output of `calculateMaxSpread`. -/
structure MaxSpreadResult where
  spread : ℚ
  highDex : String
  lowDex : String
  highRate : ℚ
  lowRate : ℚ
  deriving DecidableEq, Repr

/-- The zero/"no opportunity" sentinel returned when fewer than 2 rates
remain after filtering. -/
def zeroResult : MaxSpreadResult :=
  { spread := 0, highDex := "", lowDex := "", highRate := 0, lowRate := 0 }

/-- One iteration of the inner loop body of `calculateMaxSpread`:
compare the pair `(x, y)` against the accumulator and replace it when the
pair's absolute rate difference strictly exceeds the accumulated spread. -/
def stepPair (x y : DexFundingRate) (acc : MaxSpreadResult) : MaxSpreadResult :=
  let spread := |x.rate - y.rate|
  if spread > acc.spread then
    if x.rate > y.rate then
      { spread := spread, highDex := x.dex, lowDex := y.dex,
        highRate := x.rate, lowRate := y.rate }
    else
      { spread := spread, highDex := y.dex, lowDex := x.dex,
        highRate := y.rate, lowRate := x.rate }
  else acc

/-- The inner loop of `calculateMaxSpread`: for a fixed `x = rates[i]`,
scan every later element `y = rates[j]` (`j > i`) in order. -/
def scanInner (x : DexFundingRate) : List DexFundingRate → MaxSpreadResult → MaxSpreadResult
  | [], acc => acc
  | y :: ys, acc => scanInner x ys (stepPair x y acc)

/-- The nested loops of `calculateMaxSpread`: outer index `i` walks the list,
inner index `j` walks the elements after `i`. -/
def scanPairs : List DexFundingRate → MaxSpreadResult → MaxSpreadResult
  | [], acc => acc
  | x :: xs, acc => scanPairs xs (scanInner x xs acc)

/-- The venue filter at the top of `calculateMaxSpread`
(`selectedDexes && selectedDexes.length > 0 ? dexRates.filter(...) : dexRates`):
filter only when a selection is provided and non-empty. -/
def filterRates (dexRates : List DexFundingRate) (selectedDexes : Option (List String)) :
    List DexFundingRate :=
  match selectedDexes with
  | some sel =>
      if sel.length > 0 then dexRates.filter (fun rate => sel.contains rate.dex)
      else dexRates
  | none => dexRates

/-- Function `calculateMaxSpread` from `frontend/src/utils/spreadCalculator.ts`:
filter by the selected DEXes, return the zero sentinel when fewer than 2
rates remain, otherwise scan all pairs for the maximum absolute spread. -/
def calculateMaxSpread (dexRates : List DexFundingRate)
    (selectedDexes : Option (List String)) : MaxSpreadResult :=
  let filteredRates := filterRates dexRates selectedDexes
  if filteredRates.length < 2 then zeroResult
  else scanPairs filteredRates zeroResult

/-- The legacy `calculateMaxSpread` (pre-venue-selection version of
`spreadCalculator.ts`): no selection parameter, otherwise the same body. -/
def calculateMaxSpreadLegacy (dexRates : List DexFundingRate) : MaxSpreadResult :=
  if dexRates.length < 2 then zeroResult
  else scanPairs dexRates zeroResult

/-- The three opportunity labels returned by `getOpportunityType`. -/
inductive OpportunityType where
  | arbitrage
  | highSpread
  | lowSpread
  deriving DecidableEq, Repr

/-- Function `getOpportunityType` from `frontend/src/utils/spreadCalculator.ts`:
`arbitrage` when the extreme rates have strictly opposite signs, else
`high-spread` when the spread is at least 100, else `low-spread`. -/
def getOpportunityType (maxSpread : MaxSpreadResult) : OpportunityType :=
  if (maxSpread.highRate > 0 ∧ maxSpread.lowRate < 0) ∨
     (maxSpread.highRate < 0 ∧ maxSpread.lowRate > 0) then
    OpportunityType.arbitrage
  else if maxSpread.spread ≥ 100 then
    OpportunityType.highSpread
  else
    OpportunityType.lowSpread

/-- The ordered list of index pairs `(i, j)`, `i < j`, exactly as the nested
loops of `calculateMaxSpread` visit them: element `(x, y)` means `x` appears
before `y` in the rate list. -/
def pairList : List DexFundingRate → List (DexFundingRate × DexFundingRate)
  | [] => []
  | x :: xs => xs.map (fun y => (x, y)) ++ pairList xs

/-- Absolute rate difference of one visited pair. -/
def pairSpread (p : DexFundingRate × DexFundingRate) : ℚ :=
  |p.1.rate - p.2.rate|

/-- The absolute rate differences of all unordered pairs, in visit order. -/
def pairSpreads (rates : List DexFundingRate) : List ℚ :=
  (pairList rates).map pairSpread

/-- The result `calculateMaxSpread` keeps for a winning pair `(x, y)`:
the higher rate's venue becomes `highDex`, the lower one `lowDex`. -/
def orientPair (p : DexFundingRate × DexFundingRate) : MaxSpreadResult :=
  if p.1.rate > p.2.rate then
    { spread := pairSpread p, highDex := p.1.dex, lowDex := p.2.dex,
      highRate := p.1.rate, lowRate := p.2.rate }
  else
    { spread := pairSpread p, highDex := p.2.dex, lowDex := p.1.dex,
      highRate := p.2.rate, lowRate := p.1.rate }

/-- Fold form of the loop body: processing one visited pair. -/
def stepAcc (acc : MaxSpreadResult) (p : DexFundingRate × DexFundingRate) : MaxSpreadResult :=
  stepPair p.1 p.2 acc

/-- Interface `FundingRateData` from `frontend/src/data/mockFundingData.ts`:
one market with its per-venue rates and placeholder metadata. -/
structure FundingRateData where
  market : String
  dexRates : List DexFundingRate
  volume24h : ℚ
  openInterest : ℚ
  lastUpdate : String
  deriving DecidableEq, Repr

/-- Filter state `activeFilters` of `frontend/src/pages/Index.tsx`. -/
structure ActiveFilters where
  showArbitrageOpportunities : Bool
  showHighSpread : Bool
  showLowSpread : Bool
  minSpread : ℚ
  maxSpread : ℚ
  deriving DecidableEq, Repr

/-- Filter pipeline of `handleFilterChange` in `frontend/src/pages/Index.tsx`:
drop markets whose maximum spread is 0, apply each enabled opportunity-type
filter, then apply the spread range filter, producing the new `filteredData`. -/
def handleFilterChange (fundingData : List FundingRateData) (filters : ActiveFilters) :
    List FundingRateData :=
  let base := fundingData.filter (fun item =>
    decide ((calculateMaxSpread item.dexRates none).spread > 0))
  let afterArb :=
    if filters.showArbitrageOpportunities then
      base.filter (fun item =>
        decide (getOpportunityType (calculateMaxSpread item.dexRates none) =
          OpportunityType.arbitrage))
    else base
  let afterHigh :=
    if filters.showHighSpread then
      afterArb.filter (fun item =>
        decide (getOpportunityType (calculateMaxSpread item.dexRates none) =
          OpportunityType.highSpread))
    else afterArb
  let afterLow :=
    if filters.showLowSpread then
      afterHigh.filter (fun item =>
        decide (getOpportunityType (calculateMaxSpread item.dexRates none) =
          OpportunityType.lowSpread))
    else afterHigh
  afterLow.filter (fun item =>
    decide ((calculateMaxSpread item.dexRates none).spread ≥ filters.minSpread ∧
      (calculateMaxSpread item.dexRates none).spread ≤ filters.maxSpread))

/-- Interface `ApiResponse` from `frontend/src/hooks/useFundingRates.ts`. -/
structure ApiResponse where
  data : List FundingRateData
  lastUpdate : String
  totalMarkets : Int
  deriving Repr

/-- React state of the `useFundingRates` hook: the four `useState` cells. -/
structure FundingRatesState where
  data : List FundingRateData
  loading : Bool
  error : Option String
  lastUpdate : Option String
  deriving Repr

/-- Function `fetchFundingRates` from `frontend/src/hooks/useFundingRates.ts`,
with the network outcome made explicit: `Except.error msg` covers both a
rejected fetch and a non-ok HTTP status (the thrown `HTTP error!` message).
On success it stores the response data and timestamp and clears the error;
on failure it only records the error message; `loading` ends false either
way (the `finally` block). -/
def fetchFundingRates (s : FundingRatesState) (outcome : Except String ApiResponse) :
    FundingRatesState :=
  match outcome with
  | Except.ok result =>
      { data := result.data, loading := false, error := none,
        lastUpdate := some result.lastUpdate }
  | Except.error msg =>
      { data := s.data, loading := false, error := some msg,
        lastUpdate := s.lastUpdate }

/-- Row of the `notification_settings` table. Columns come from the table
definitions in `database/clean_queries.sql` (PostgreSQL schema) and
`database/migrate_add_minutes_interval.sql` (migrated SQLite schema);
`none` models SQL NULL. -/
structure NotificationSettingsRow where
  id : Int
  chat_id : Int
  name : String
  interval_hours : Option Int
  interval_minutes : Option Int
  min_spread : Option ℚ
  max_spread : Option ℚ
  selected_dexes : Option String
  show_arbitrage_only : Bool
  show_high_spread_only : Bool
  max_results : Option Int
  is_active : Bool
  last_sent : Option String
  deriving DecidableEq, Repr

/-- The two concrete schemas of `notification_settings` in the repository:
the PostgreSQL one (`clean_queries.sql`) and the SQLite one recreated by
`migrate_add_minutes_interval.sql`. -/
inductive DbSchema where
  | postgres
  | sqlite
  deriving DecidableEq, Repr

/-- SQL semantics of a column CHECK on a nullable column: NULL passes. -/
def nullableCheck {α : Type} (p : α → Bool) : Option α → Bool
  | none => true
  | some a => p a

/-- Constraint `check_interval` shared by both schemas:
`(interval_hours IS NOT NULL AND interval_minutes IS NULL) OR
 (interval_hours IS NULL AND interval_minutes IS NOT NULL)`. -/
def checkInterval (r : NotificationSettingsRow) : Bool :=
  (r.interval_hours.isSome && r.interval_minutes.isNone) ||
  (r.interval_hours.isNone && r.interval_minutes.isSome)

/-- All CHECK constraints a row must pass to be stored under a given schema.
The PostgreSQL table carries per-column range checks
(`interval_hours` in 1..24, `interval_minutes` in 5..60, `min_spread ≥ 0`,
`max_spread ≥ min_spread`, `max_results` in 1..10) plus `check_interval`;
the migrated SQLite table carries only the interval XOR check. -/
def rowChecks (schema : DbSchema) (r : NotificationSettingsRow) : Bool :=
  match schema with
  | DbSchema.postgres =>
      nullableCheck (fun h => decide (1 ≤ h ∧ h ≤ 24)) r.interval_hours &&
      nullableCheck (fun m => decide (5 ≤ m ∧ m ≤ 60)) r.interval_minutes &&
      nullableCheck (fun s => decide (0 ≤ s)) r.min_spread &&
      (match r.min_spread, r.max_spread with
       | some lo, some hi => decide (lo ≤ hi)
       | _, _ => true) &&
      nullableCheck (fun n => decide (0 < n ∧ n ≤ 10)) r.max_results &&
      checkInterval r
  | DbSchema.sqlite => checkInterval r

/-- Model of `INSERT INTO notification_settings`: the row is stored only when
it passes the table's CHECK constraints, otherwise the statement fails. -/
def insertSetting (schema : DbSchema) (db : List NotificationSettingsRow)
    (r : NotificationSettingsRow) : Option (List NotificationSettingsRow) :=
  if rowChecks schema r then some (db ++ [r]) else none

/-- Model of `UPDATE notification_settings SET ... WHERE id = i`: every
updated row must pass the table's CHECK constraints, otherwise the statement
fails and the table is unchanged. -/
def updateSetting (schema : DbSchema) (db : List NotificationSettingsRow)
    (i : Int) (f : NotificationSettingsRow → NotificationSettingsRow) :
    Option (List NotificationSettingsRow) :=
  if (db.filter (fun r => decide (r.id = i))).all (fun r => rowChecks schema (f r)) then
    some (db.map (fun r => if r.id = i then f r else r))
  else none

/-- Property stated by the spec's interval invariant: exactly one of the
hours interval and the minutes interval is set. -/
def intervalExactlyOne (r : NotificationSettingsRow) : Prop :=
  Xor' (r.interval_hours.isSome = true) (r.interval_minutes.isSome = true)

/-- Sample row mirroring the commented test insert of `clean_queries.sql`
(hourly interval, within every range). -/
def sampleSetting : NotificationSettingsRow :=
  ⟨1, 123456789, "Test Alert", some 5, none, some 100, some 500,
   some "[\"dYdX\", \"Hyperliquid\"]", true, false, some 5, true, none⟩

/-- Row with a minutes interval of 200, far outside the documented
`[5, 60]` range, but with exactly one interval set. -/
def outOfRangeSetting : NotificationSettingsRow :=
  ⟨2, 99, "Bad Interval", none, some 200, none, none, none, false, false, none, true, none⟩

lemma scanInner_eq_foldl (x : DexFundingRate) (ys : List DexFundingRate)
    (acc : MaxSpreadResult) :
    scanInner x ys acc = (ys.map (fun y => (x, y))).foldl stepAcc acc := by
  induction ys generalizing acc with
  | nil => rfl
  | cons y ys ih => simp [scanInner, stepAcc, ih]

lemma scanPairs_eq_foldl (xs : List DexFundingRate) (acc : MaxSpreadResult) :
    scanPairs xs acc = (pairList xs).foldl stepAcc acc := by
  induction xs generalizing acc with
  | nil => rfl
  | cons x xs ih => simp [scanPairs, pairList, List.foldl_append, scanInner_eq_foldl, ih]

lemma stepPair_spread (x y : DexFundingRate) (acc : MaxSpreadResult) :
    (stepPair x y acc).spread = max acc.spread |x.rate - y.rate| := by
  unfold stepPair
  by_cases h : |x.rate - y.rate| > acc.spread
  · rw [if_pos h]
    by_cases h2 : x.rate > y.rate
    · rw [if_pos h2]
      exact (max_eq_right (le_of_lt h)).symm
    · rw [if_neg h2]
      exact (max_eq_right (le_of_lt h)).symm
  · rw [if_neg h]
    exact (max_eq_left (le_of_not_lt h)).symm

lemma foldl_stepAcc_spread (L : List (DexFundingRate × DexFundingRate))
    (acc : MaxSpreadResult) :
    (L.foldl stepAcc acc).spread = (L.map pairSpread).foldl max acc.spread := by
  induction L generalizing acc with
  | nil => rfl
  | cons p L ih => simp [ih, stepAcc, stepPair_spread, pairSpread]

lemma le_foldl_max (L : List ℚ) (b : ℚ) : b ≤ L.foldl max b := by
  induction L generalizing b with
  | nil => exact le_refl b
  | cons a L ih => exact le_trans (le_max_left b a) (ih (max b a))

lemma mem_le_foldl_max (L : List ℚ) (b a : ℚ) (ha : a ∈ L) : a ≤ L.foldl max b := by
  induction L generalizing b with
  | nil => cases ha
  | cons c L ih =>
    rcases List.mem_cons.mp ha with h | h
    · subst h
      exact le_trans (le_max_right b a) (le_foldl_max L (max b a))
    · exact ih (max b c) h

lemma foldl_max_eq_or_mem (L : List ℚ) (b : ℚ) : L.foldl max b = b ∨ L.foldl max b ∈ L := by
  induction L generalizing b with
  | nil => exact Or.inl rfl
  | cons a L ih =>
    rcases ih (max b a) with h | h
    · rcases max_choice b a with hb | hb
      · exact Or.inl (by rw [List.foldl_cons, h, hb])
      · exact Or.inr (by rw [List.foldl_cons, h, hb]; exact List.mem_cons_self a L)
    · exact Or.inr (List.mem_cons_of_mem a h)

lemma stepPair_low_le_high (x y : DexFundingRate) (acc : MaxSpreadResult)
    (h : acc.lowRate ≤ acc.highRate) :
    (stepPair x y acc).lowRate ≤ (stepPair x y acc).highRate := by
  unfold stepPair
  by_cases h1 : |x.rate - y.rate| > acc.spread
  · rw [if_pos h1]
    by_cases h2 : x.rate > y.rate
    · rw [if_pos h2]; exact le_of_lt h2
    · rw [if_neg h2]; exact le_of_not_lt h2
  · rw [if_neg h1]; exact h

lemma foldl_stepAcc_low_le_high (L : List (DexFundingRate × DexFundingRate))
    (acc : MaxSpreadResult) (h : acc.lowRate ≤ acc.highRate) :
    (L.foldl stepAcc acc).lowRate ≤ (L.foldl stepAcc acc).highRate := by
  induction L generalizing acc with
  | nil => exact h
  | cons p L ih => exact ih (stepAcc acc p) (stepPair_low_le_high p.1 p.2 acc h)

lemma pairSpreads_nonneg (l : List DexFundingRate) : ∀ a ∈ pairSpreads l, 0 ≤ a := by
  intro a ha
  rcases List.mem_map.mp ha with ⟨p, _, hp⟩
  rw [← hp]
  exact abs_nonneg _

lemma pairList_eq_nil_iff (l : List DexFundingRate) : pairList l = [] ↔ l.length < 2 := by
  match l with
  | [] => simp [pairList]
  | [x] => simp [pairList]
  | x :: y :: ys => simp [pairList]

lemma calculateMaxSpread_of_two_le (dexRates : List DexFundingRate)
    (sel : Option (List String)) (h : ¬ (filterRates dexRates sel).length < 2) :
    calculateMaxSpread dexRates sel =
      (pairList (filterRates dexRates sel)).foldl stepAcc zeroResult := by
  rw [calculateMaxSpread]
  simp only [if_neg h]
  exact scanPairs_eq_foldl _ _

lemma stepPair_of_le (x y : DexFundingRate) (acc : MaxSpreadResult)
    (h : |x.rate - y.rate| ≤ acc.spread) : stepPair x y acc = acc := by
  unfold stepPair
  rw [if_neg (not_lt.mpr h)]

lemma stepPair_of_lt (x y : DexFundingRate) (acc : MaxSpreadResult)
    (h : acc.spread < |x.rate - y.rate|) : stepPair x y acc = orientPair (x, y) := by
  unfold stepPair orientPair pairSpread
  rw [if_pos h]

lemma orientPair_spread (p : DexFundingRate × DexFundingRate) :
    (orientPair p).spread = pairSpread p := by
  unfold orientPair
  by_cases h : p.1.rate > p.2.rate
  · rw [if_pos h]
  · rw [if_neg h]

lemma foldl_no_update (L : List (DexFundingRate × DexFundingRate)) (acc : MaxSpreadResult)
    (h : ∀ p ∈ L, pairSpread p ≤ acc.spread) : L.foldl stepAcc acc = acc := by
  induction L with
  | nil => rfl
  | cons p L ih =>
    rw [List.foldl_cons]
    have hp : stepAcc acc p = acc :=
      stepPair_of_le p.1 p.2 acc (h p (List.mem_cons_self p L))
    rw [hp]
    exact ih (fun q hq => h q (List.mem_cons_of_mem p hq))

lemma fold_first_max (L₁ : List (DexFundingRate × DexFundingRate))
    (q : DexFundingRate × DexFundingRate) (L₂ : List (DexFundingRate × DexFundingRate)) :
    ∀ acc : MaxSpreadResult, acc.spread < pairSpread q →
      (∀ x ∈ L₁, pairSpread x < pairSpread q) →
      (∀ x ∈ L₂, pairSpread x ≤ pairSpread q) →
      (L₁ ++ q :: L₂).foldl stepAcc acc = orientPair q := by
  induction L₁ with
  | nil =>
    intro acc hacc _ hafter
    rw [List.nil_append, List.foldl_cons]
    have hq : stepAcc acc q = orientPair q := by
      rw [stepAcc, stepPair_of_lt q.1 q.2 acc hacc]
    rw [hq]
    exact foldl_no_update L₂ (orientPair q)
      (fun x hx => by rw [orientPair_spread]; exact hafter x hx)
  | cons x xs ih =>
    intro acc hacc hbefore hafter
    rw [List.cons_append, List.foldl_cons]
    have hx : pairSpread x < pairSpread q := hbefore x (List.mem_cons_self x xs)
    have hacc' : (stepAcc acc x).spread < pairSpread q := by
      rw [stepAcc, stepPair_spread]
      exact max_lt hacc hx
    exact ih (stepAcc acc x) hacc'
      (fun y hy => hbefore y (List.mem_cons_of_mem x hy)) hafter

lemma pairSpreads_eq_nil_iff (l : List DexFundingRate) :
    pairSpreads l = [] ↔ l.length < 2 := by
  rw [pairSpreads, List.map_eq_nil_iff]
  exact pairList_eq_nil_iff l

lemma calculateMaxSpread_spread_eq (dexRates : List DexFundingRate)
    (sel : Option (List String)) (h : ¬ (filterRates dexRates sel).length < 2) :
    (calculateMaxSpread dexRates sel).spread =
      (pairSpreads (filterRates dexRates sel)).foldl max 0 := by
  rw [calculateMaxSpread_of_two_le dexRates sel h, foldl_stepAcc_spread]
  rfl

/-- C1: for every rate list and venue selection, the classifier's `spread`
is an upper bound of all pairwise absolute rate differences of the filtered
list, is attained by one of them whenever at least one pair exists, is `0`
when fewer than 2 rates remain, and the returned rates satisfy
`lowRate ≤ highRate`. -/
theorem claim1_spread_eq_max_pairwise (dexRates : List DexFundingRate)
    (sel : Option (List String)) :
    (∀ a ∈ pairSpreads (filterRates dexRates sel),
      a ≤ (calculateMaxSpread dexRates sel).spread) ∧
    (pairSpreads (filterRates dexRates sel) ≠ [] →
      (calculateMaxSpread dexRates sel).spread ∈ pairSpreads (filterRates dexRates sel)) ∧
    ((filterRates dexRates sel).length < 2 →
      (calculateMaxSpread dexRates sel).spread = 0) ∧
    (calculateMaxSpread dexRates sel).lowRate ≤ (calculateMaxSpread dexRates sel).highRate := by
  by_cases hlen : (filterRates dexRates sel).length < 2
  · have hres : calculateMaxSpread dexRates sel = zeroResult := by
      simp [calculateMaxSpread, hlen]
    have hnil : pairSpreads (filterRates dexRates sel) = [] :=
      (pairSpreads_eq_nil_iff _).mpr hlen
    refine ⟨?_, ?_, ?_, ?_⟩
    · intro a ha
      rw [hnil] at ha
      cases ha
    · intro hne
      exact absurd hnil hne
    · intro _
      rw [hres]
      rfl
    · rw [hres]
      exact le_refl 0
  · have hspread := calculateMaxSpread_spread_eq dexRates sel hlen
    refine ⟨?_, ?_, ?_, ?_⟩
    · intro a ha
      rw [hspread]
      exact mem_le_foldl_max _ 0 a ha
    · intro hne
      rw [hspread]
      rcases foldl_max_eq_or_mem (pairSpreads (filterRates dexRates sel)) 0 with h0 | hmem
      · obtain ⟨a, ha⟩ := List.exists_mem_of_ne_nil _ hne
        have h1 : a ≤ 0 := by
          have := mem_le_foldl_max (pairSpreads (filterRates dexRates sel)) 0 a ha
          rw [h0] at this
          exact this
        have h2 : 0 ≤ a := pairSpreads_nonneg _ a ha
        rw [h0]
        rw [← le_antisymm h1 h2]
        exact ha
      · exact hmem
    · intro h
      exact absurd h hlen
    · rw [calculateMaxSpread_of_two_le dexRates sel hlen]
      exact foldl_stepAcc_low_le_high _ zeroResult (le_refl 0)

/-- Witness for C1: on rates `A:10, B:50, C:80` the returned spread is one
of the pairwise absolute differences. -/
theorem claim1_witness :
    (calculateMaxSpread [⟨"A", 10⟩, ⟨"B", 50⟩, ⟨"C", 80⟩] none).spread ∈
      pairSpreads (filterRates [⟨"A", 10⟩, ⟨"B", 50⟩, ⟨"C", 80⟩] none) :=
  (claim1_spread_eq_max_pairwise [⟨"A", 10⟩, ⟨"B", 50⟩, ⟨"C", 80⟩] none).2.1
    (by simp [pairSpreads, pairList, filterRates])

/-- C2 counterexample: on `A:25, B:25` two rates remain and the (unique)
maximal pair is `(A, B)`, but the classifier returns the sentinel with empty
venue names and zero rates, not that pair's venues and rates. -/
theorem claim2_counterexample :
    (filterRates [⟨"A", 25⟩, ⟨"B", 25⟩] none).length = 2 ∧
    pairList (filterRates [⟨"A", 25⟩, ⟨"B", 25⟩] none) = [(⟨"A", 25⟩, ⟨"B", 25⟩)] ∧
    calculateMaxSpread [⟨"A", 25⟩, ⟨"B", 25⟩] none = zeroResult ∧
    (calculateMaxSpread [⟨"A", 25⟩, ⟨"B", 25⟩] none).highDex ≠ "A" ∧
    (calculateMaxSpread [⟨"A", 25⟩, ⟨"B", 25⟩] none).lowDex ≠ "B" := by
  have h : calculateMaxSpread [⟨"A", 25⟩, ⟨"B", 25⟩] none = zeroResult := by
    norm_num [calculateMaxSpread, filterRates, scanPairs, scanInner, stepPair, zeroResult]
  refine ⟨by decide, by decide, h, ?_, ?_⟩
  · rw [h]
    decide
  · rw [h]
    decide

/-- C2 (amended): whenever some pair of the filtered list has a positive
absolute rate difference, the classifier keeps the first-encountered pair
achieving the maximum difference — every pair scanned before it is strictly
smaller, every pair after it no larger — returning that pair's venues and
rates oriented so the higher rate is `highDex`/`highRate`. (When the maximal
difference is `0` the sentinel is returned instead, per the counterexample.) -/
theorem claim2_keeps_first_max_pair (dexRates : List DexFundingRate)
    (sel : Option (List String)) (L₁ L₂ : List (DexFundingRate × DexFundingRate))
    (q : DexFundingRate × DexFundingRate)
    (hsplit : pairList (filterRates dexRates sel) = L₁ ++ q :: L₂)
    (hbefore : ∀ x ∈ L₁, pairSpread x < pairSpread q)
    (hafter : ∀ x ∈ L₂, pairSpread x ≤ pairSpread q)
    (hpos : 0 < pairSpread q) :
    calculateMaxSpread dexRates sel = orientPair q := by
  have hne : pairList (filterRates dexRates sel) ≠ [] := by
    rw [hsplit]
    simp
  have hlen : ¬ (filterRates dexRates sel).length < 2 := by
    intro h
    exact hne ((pairList_eq_nil_iff _).mpr h)
  rw [calculateMaxSpread_of_two_le dexRates sel hlen, hsplit]
  exact fold_first_max L₁ q L₂ zeroResult hpos hbefore hafter

/-- Witness for C2 (amended): on `X:5, Y:20, Z:90` the winning pair is
`(X, Z)` (difference 85), oriented with `Z` as the high venue. -/
theorem claim2_witness :
    calculateMaxSpread [⟨"X", 5⟩, ⟨"Y", 20⟩, ⟨"Z", 90⟩] none =
      orientPair (⟨"X", 5⟩, ⟨"Z", 90⟩) := by
  refine claim2_keeps_first_max_pair [⟨"X", 5⟩, ⟨"Y", 20⟩, ⟨"Z", 90⟩] none
    [(⟨"X", 5⟩, ⟨"Y", 20⟩)] [(⟨"Y", 20⟩, ⟨"Z", 90⟩)] (⟨"X", 5⟩, ⟨"Z", 90⟩)
    (by decide) ?_ ?_ ?_
  · intro x hx
    rw [List.mem_singleton] at hx
    subst hx
    show |(5:ℚ) - 20| < |(5:ℚ) - 90|
    rw [show (5:ℚ) - 20 = -15 by norm_num, show (5:ℚ) - 90 = -85 by norm_num]
    rw [abs_of_nonpos (by norm_num), abs_of_nonpos (by norm_num)]
    norm_num
  · intro x hx
    rw [List.mem_singleton] at hx
    subst hx
    show |(20:ℚ) - 90| ≤ |(5:ℚ) - 90|
    rw [show (20:ℚ) - 90 = -70 by norm_num, show (5:ℚ) - 90 = -85 by norm_num]
    rw [abs_of_nonpos (by norm_num), abs_of_nonpos (by norm_num)]
    norm_num
  · show (0:ℚ) < |(5:ℚ) - 90|
    rw [show (5:ℚ) - 90 = -85 by norm_num, abs_of_nonpos (by norm_num)]
    norm_num

/-- C3: for every `MaxSpreadResult`, the opportunity type is `arbitrage`
exactly when the high and low rates have strictly opposite signs — including
when `spread ≥ 100`, so arbitrage takes precedence over high-spread. -/
theorem claim3_arbitrage_iff_opposite_signs (m : MaxSpreadResult) :
    getOpportunityType m = OpportunityType.arbitrage ↔
      (0 < m.highRate ∧ m.lowRate < 0) ∨ (m.highRate < 0 ∧ 0 < m.lowRate) := by
  unfold getOpportunityType
  by_cases h1 : (m.highRate > 0 ∧ m.lowRate < 0) ∨ (m.highRate < 0 ∧ m.lowRate > 0)
  · rw [if_pos h1]
    exact iff_of_true rfl h1
  · rw [if_neg h1]
    by_cases h2 : m.spread ≥ 100
    · rw [if_pos h2]
      exact iff_of_false (by simp) h1
    · rw [if_neg h2]
      exact iff_of_false (by simp) h1

/-- Witness for C3: a result with `spread = 120 ≥ 100` but opposite-signed
rates is classified `arbitrage`, not `high-spread`. -/
theorem claim3_witness :
    getOpportunityType ⟨120, "A", "B", 60, -60⟩ = OpportunityType.arbitrage :=
  (claim3_arbitrage_iff_opposite_signs ⟨120, "A", "B", 60, -60⟩).mpr
    (Or.inl ⟨by norm_num, by norm_num⟩)

/-- C4: whenever fewer than 2 rates remain after filtering to the provided
venue selection, the classifier returns the zero sentinel (`spread = 0`,
empty venue names, zero rates). -/
theorem claim4_sentinel_when_fewer_than_two (dexRates : List DexFundingRate)
    (sel : Option (List String)) (h : (filterRates dexRates sel).length < 2) :
    calculateMaxSpread dexRates sel = zeroResult := by
  simp [calculateMaxSpread, h]

/-- Witness for C4: a single-venue list under a selection keeping only that
venue produces the sentinel. -/
theorem claim4_witness :
    calculateMaxSpread [⟨"OnlyVenue", 7⟩] (some ["OnlyVenue"]) = zeroResult :=
  claim4_sentinel_when_fewer_than_two [⟨"OnlyVenue", 7⟩] (some ["OnlyVenue"]) (by decide)

lemma getOpportunityType_eq_highSpread_iff (m : MaxSpreadResult) :
    getOpportunityType m = OpportunityType.highSpread ↔
      (¬ ((0 < m.highRate ∧ m.lowRate < 0) ∨ (m.highRate < 0 ∧ 0 < m.lowRate)) ∧
        100 ≤ m.spread) := by
  unfold getOpportunityType
  by_cases h1 : (m.highRate > 0 ∧ m.lowRate < 0) ∨ (m.highRate < 0 ∧ m.lowRate > 0)
  · rw [if_pos h1]
    exact iff_of_false (by simp) (fun h => h.1 h1)
  · rw [if_neg h1]
    by_cases h2 : m.spread ≥ 100
    · rw [if_pos h2]
      exact iff_of_true rfl ⟨h1, h2⟩
    · rw [if_neg h2]
      exact iff_of_false (by simp) (fun h => h2 h.2)

/-- C5 (amended): with only the high-spread filter enabled, a market is kept
exactly when it passes the `spread > 0` and `[minSpread, maxSpread]` range
checks AND its opportunity type is high-spread, i.e. its spread is at least
100 and its extreme rates do not have strictly opposite signs; an arbitrage
market is dropped even when its spread is at least 100. -/
theorem claim5_high_spread_filter_keeps (fundingData : List FundingRateData)
    (minS maxS : ℚ) (item : FundingRateData) :
    item ∈ handleFilterChange fundingData ⟨false, true, false, minS, maxS⟩ ↔
      (item ∈ fundingData ∧
       0 < (calculateMaxSpread item.dexRates none).spread ∧
       minS ≤ (calculateMaxSpread item.dexRates none).spread ∧
       (calculateMaxSpread item.dexRates none).spread ≤ maxS ∧
       100 ≤ (calculateMaxSpread item.dexRates none).spread ∧
       ¬ ((0 < (calculateMaxSpread item.dexRates none).highRate ∧
           (calculateMaxSpread item.dexRates none).lowRate < 0) ∨
          ((calculateMaxSpread item.dexRates none).highRate < 0 ∧
           0 < (calculateMaxSpread item.dexRates none).lowRate))) := by
  simp only [handleFilterChange, Bool.false_eq_true, if_false, if_true, List.mem_filter,
    decide_eq_true_eq, getOpportunityType_eq_highSpread_iff]
  constructor
  · rintro ⟨⟨⟨hmem, hpos⟩, hhs⟩, hrange⟩
    exact ⟨hmem, hpos, hrange.1, hrange.2, hhs.2, hhs.1⟩
  · rintro ⟨hmem, hpos, hlo, hhi, hbig, hnarb⟩
    exact ⟨⟨⟨hmem, hpos⟩, hnarb, hbig⟩, hlo, hhi⟩

/-- C5 counterexample: the market `XYZ` with rates `A:160, B:-60` has
spread 220 — positive, within the default range `[0, 500]`, and at least
100 — yet the high-spread-only filter removes it, because its opposite-signed
rates classify it as arbitrage. -/
theorem claim5_counterexample :
    (calculateMaxSpread [⟨"A", 160⟩, ⟨"B", -60⟩] none).spread = 220 ∧
    (0:ℚ) < (calculateMaxSpread [⟨"A", 160⟩, ⟨"B", -60⟩] none).spread ∧
    (0:ℚ) ≤ (calculateMaxSpread [⟨"A", 160⟩, ⟨"B", -60⟩] none).spread ∧
    (calculateMaxSpread [⟨"A", 160⟩, ⟨"B", -60⟩] none).spread ≤ 500 ∧
    (100:ℚ) ≤ (calculateMaxSpread [⟨"A", 160⟩, ⟨"B", -60⟩] none).spread ∧
    handleFilterChange [⟨"XYZ", [⟨"A", 160⟩, ⟨"B", -60⟩], 0, 0, ""⟩]
      ⟨false, true, false, 0, 500⟩ = [] := by
  have h : calculateMaxSpread [⟨"A", 160⟩, ⟨"B", -60⟩] none =
      ⟨220, "A", "B", 160, -60⟩ := by
    norm_num [calculateMaxSpread, filterRates, scanPairs, scanInner, stepPair, zeroResult,
      abs]
  refine ⟨by rw [h], by rw [h]; norm_num, by rw [h]; norm_num, by rw [h]; norm_num,
    by rw [h]; norm_num, ?_⟩
  norm_num [handleFilterChange, h, getOpportunityType_eq_highSpread_iff, List.filter_cons]

/-- C6: a failed fetch leaves the published data and last-update timestamp
exactly as they were, changing only the error indication. -/
theorem claim6_failed_fetch_preserves_data (s : FundingRatesState) (msg : String) :
    (fetchFundingRates s (Except.error msg)).data = s.data ∧
    (fetchFundingRates s (Except.error msg)).lastUpdate = s.lastUpdate ∧
    (fetchFundingRates s (Except.error msg)).error = some msg ∧
    (fetchFundingRates s (Except.error msg)).loading = false :=
  ⟨rfl, rfl, rfl, rfl⟩

lemma checkInterval_of_rowChecks (schema : DbSchema) (r : NotificationSettingsRow)
    (h : rowChecks schema r = true) : checkInterval r = true := by
  cases schema with
  | postgres =>
    simp only [rowChecks, Bool.and_eq_true] at h
    exact h.2
  | sqlite => exact h

lemma intervalExactlyOne_of_rowChecks (schema : DbSchema) (r : NotificationSettingsRow)
    (h : rowChecks schema r = true) : intervalExactlyOne r := by
  have hx := checkInterval_of_rowChecks schema r h
  rw [checkInterval, Bool.or_eq_true, Bool.and_eq_true, Bool.and_eq_true] at hx
  unfold intervalExactlyOne Xor'
  rcases hx with ⟨hs, hn⟩ | ⟨hn, hs⟩
  · left
    refine ⟨hs, ?_⟩
    rw [Option.isNone_iff_eq_none] at hn
    simp [hn]
  · right
    refine ⟨hs, ?_⟩
    rw [Option.isNone_iff_eq_none] at hn
    simp [hn]

/-- C7: every row accepted by either schema's CHECK constraints satisfies the
interval XOR invariant, and the invariant is preserved by the operations
that create and mutate settings: starting from a table where it holds,
a successful INSERT and a subsequent successful UPDATE both yield tables
where every stored row still has exactly one interval set. -/
theorem claim7_interval_xor_invariant (schema : DbSchema)
    (db db₁ db₂ : List NotificationSettingsRow) (r : NotificationSettingsRow)
    (i : Int) (f : NotificationSettingsRow → NotificationSettingsRow)
    (hdb : ∀ x ∈ db, intervalExactlyOne x)
    (hins : insertSetting schema db r = some db₁)
    (hupd : updateSetting schema db₁ i f = some db₂) :
    (∀ x ∈ db₁, intervalExactlyOne x) ∧ (∀ x ∈ db₂, intervalExactlyOne x) := by
  have hchk : rowChecks schema r = true := by
    by_cases hc : rowChecks schema r = true
    · exact hc
    · rw [insertSetting, if_neg hc] at hins
      cases hins
  have hdb₁ : db₁ = db ++ [r] := by
    rw [insertSetting, if_pos hchk] at hins
    exact (Option.some.inj hins).symm
  have h₁ : ∀ x ∈ db₁, intervalExactlyOne x := by
    intro x hx
    rw [hdb₁, List.mem_append] at hx
    rcases hx with hx | hx
    · exact hdb x hx
    · rw [List.mem_singleton] at hx
      subst hx
      exact intervalExactlyOne_of_rowChecks schema x hchk
  have hall : (db₁.filter (fun s => decide (s.id = i))).all
      (fun s => rowChecks schema (f s)) = true := by
    by_cases hc : (db₁.filter (fun s => decide (s.id = i))).all
        (fun s => rowChecks schema (f s)) = true
    · exact hc
    · rw [updateSetting, if_neg hc] at hupd
      cases hupd
  have hdb₂ : db₂ = db₁.map (fun s => if s.id = i then f s else s) := by
    rw [updateSetting, if_pos hall] at hupd
    exact (Option.some.inj hupd).symm
  refine ⟨h₁, ?_⟩
  intro x hx
  rw [hdb₂] at hx
  rcases List.mem_map.mp hx with ⟨y, hy, hxy⟩
  by_cases hid : y.id = i
  · rw [if_pos hid] at hxy
    subst hxy
    refine intervalExactlyOne_of_rowChecks schema (f y) ?_
    have hymem : y ∈ db₁.filter (fun s => decide (s.id = i)) :=
      List.mem_filter.mpr ⟨hy, by simp [hid]⟩
    simpa using List.all_eq_true.mp hall y hymem
  · rw [if_neg hid] at hxy
    subst hxy
    exact h₁ y hy

/-- Witness for C7: inserting the sample hourly setting into an empty table
and then applying an identity UPDATE keeps the XOR invariant on every row. -/
theorem claim7_witness :
    (∀ x ∈ [sampleSetting], intervalExactlyOne x) ∧
    (∀ x ∈ [sampleSetting], intervalExactlyOne x) :=
  claim7_interval_xor_invariant DbSchema.postgres [] [sampleSetting] [sampleSetting]
    sampleSetting 1 id (by simp) (by decide) (by decide)

/-- C8 (amended): under the PostgreSQL schema (`clean_queries.sql`) every
accepted row has its set interval within bounds — hours in `[1, 24]`,
minutes in `[5, 60]`. The table recreated by the SQLite migration enforces
only the XOR constraint, so out-of-range intervals can be stored there
(see the counterexample). -/
theorem claim8_postgres_interval_bounds (r : NotificationSettingsRow)
    (h : rowChecks DbSchema.postgres r = true) :
    (∀ hrs : Int, r.interval_hours = some hrs → 1 ≤ hrs ∧ hrs ≤ 24) ∧
    (∀ mins : Int, r.interval_minutes = some mins → 5 ≤ mins ∧ mins ≤ 60) := by
  simp only [rowChecks, Bool.and_eq_true] at h
  obtain ⟨⟨⟨⟨⟨hh, hm⟩, _⟩, _⟩, _⟩, _⟩ := h
  constructor
  · intro hrs heq
    rw [heq] at hh
    simpa [nullableCheck] using hh
  · intro mins heq
    rw [heq] at hm
    simpa [nullableCheck] using hm

/-- Witness for C8 (amended): the sample setting passes the PostgreSQL
checks, so its hours interval is within `[1, 24]`. -/
theorem claim8_witness :
    (∀ hrs : Int, sampleSetting.interval_hours = some hrs → 1 ≤ hrs ∧ hrs ≤ 24) ∧
    (∀ mins : Int, sampleSetting.interval_minutes = some mins → 5 ≤ mins ∧ mins ≤ 60) :=
  claim8_postgres_interval_bounds sampleSetting (by decide)

/-- C8 counterexample: the migrated SQLite table accepts an INSERT whose
minutes interval is 200, outside the claimed `[5, 60]` range. -/
theorem claim8_counterexample :
    insertSetting DbSchema.sqlite [] outOfRangeSetting = some [outOfRangeSetting] ∧
    outOfRangeSetting.interval_minutes = some 200 ∧
    ¬ ((200 : Int) ≤ 60) :=
  ⟨by decide, rfl, by decide⟩

/-- C9: a provided-but-empty venue selection behaves exactly like no
selection: nothing is filtered out. -/
theorem claim9_empty_selection_is_no_filter (dexRates : List DexFundingRate) :
    calculateMaxSpread dexRates (some []) = calculateMaxSpread dexRates none := rfl

/-- C10: with no venue selection the current classifier coincides with the
legacy selection-free classifier on every input. -/
theorem claim10_conservative_extension (dexRates : List DexFundingRate) :
    calculateMaxSpread dexRates none = calculateMaxSpreadLegacy dexRates := rfl

end FundingsScreener
